import Mathlib

/-!
Verification of the cache-coherence core of raw-cacher-go.

The development shallowly embeds the pure cache logic (`internal/cache`:
the `Meta` record, the freshness predicates `IsFresh` / `IsNegativeFresh`,
the key derivation `ObjectKey` / `MetaKey`), the path parser
`splitDomainAndRoute`, and the request coordinator `ServeHTTP`
(its single-flight body and the response dispatch) as executable Lean
functions, and proves the stated properties about them.

Modelling conventions:
* Time is an integer count of nanoseconds (`now`); Go's
  `time.Since(t) < time.Duration(ttl)*time.Second` becomes
  `now - t < ttl * 1000000000`.
* RFC3339Nano parsing (`time.Parse`) is an external library routine; it is
  abstracted as an arbitrary `parse : String → Option Int` parameter, so
  every theorem holds for each possible parsing function.
* `NowISO` (formatting the current instant) is modelled as an injective
  rendering of the integer instant.
* The object store is a pair of association lists (objects and metadata
  sidecars); a put prepends, a lookup takes the most recent binding,
  mirroring the overwrite semantics of the store. Write failures are
  modelled by boolean switches (`putObjectOk`, `writeMetaOk`): a failed
  write leaves the state unchanged and reports an error.
* The upstream fetch is an input `Except Unit UpResp`: either a transport
  error or a response (status, headers, body).
-/

/-- `cache.Meta` (part_002): the JSON metadata sidecar of a cached object. -/
structure Meta where
  ETag : String
  LastModified : String
  CachedAt : String
  TTL : Int
  Size : Int
  Neg : Bool
deriving DecidableEq, Repr

/-- The Go zero value of `cache.Meta`, returned by `ReadMeta` on absence. -/
def emptyMeta : Meta :=
  { ETag := "", LastModified := "", CachedAt := "", TTL := 0, Size := 0, Neg := false }

/-- `cache.NowISO` (part_002): render the current instant as a string.
The Go code formats `time.Now().UTC()` in RFC3339Nano; here the instant is
an abstract integer and the rendering is its decimal form. -/
def NowISO (now : Int) : String := toString now

/-- `cache.IsFresh` (part_002 lines 16-32). `parse` abstracts
`time.Parse(time.RFC3339Nano, ·)`, `now` the current instant in
nanoseconds. -/
def IsFresh (parse : String → Option Int) (now : Int) (m : Meta) (defaultTTL : Int) : Bool :=
  if m.Neg then false
  else
    let ttl := if m.TTL ≤ 0 then defaultTTL else m.TTL
    if m.CachedAt = "" then false
    else
      match parse m.CachedAt with
      | none => false
      | some t => decide (now - t < ttl * 1000000000)

/-- `cache.IsNegativeFresh` (part_002 lines 34-47). -/
def IsNegativeFresh (parse : String → Option Int) (now : Int) (m : Meta) (ttl404 : Int) : Bool :=
  if m.Neg = false ∨ m.CachedAt = "" then false
  else
    match parse m.CachedAt with
    | none => false
    | some t =>
      let ttl := if m.TTL ≤ 0 then ttl404 else m.TTL
      decide (now - t < ttl * 1000000000)

/-- The leading-slash stripping loop shared by `ObjectKey` and `MetaKey`
(part_002 lines 50-52 and 57-59), on the character list of the route. -/
def stripSlashes : List Char → List Char
  | [] => []
  | c :: cs => if c = '/' then stripSlashes cs else c :: cs

/-- Leading-slash trimming of a route string. -/
def trimLeadingSlashes (s : String) : String := String.mk (stripSlashes s.data)

/-- `cache.ObjectKey` (part_002 lines 49-54). -/
def ObjectKey (domain route : String) : String :=
  "objects/" ++ domain ++ "/" ++ trimLeadingSlashes route

/-- `cache.MetaKey` (part_002 lines 56-61). -/
def MetaKey (domain route : String) : String :=
  "meta/" ++ domain ++ "/" ++ trimLeadingSlashes route ++ ".json"

/-! ### Claims about the freshness model -/

/-- Claim C2: positive freshness holds exactly when the record is not
negative, `CachedAt` is non-empty and parses to an instant `t`, and
`now - t` is strictly below the effective TTL (the record's TTL when
positive, else the supplied default), in nanoseconds. -/
theorem isFresh_iff (parse : String → Option Int) (now : Int) (m : Meta) (defaultTTL : Int) :
    IsFresh parse now m defaultTTL = true ↔
      m.Neg = false ∧ m.CachedAt ≠ "" ∧
        ∃ t, parse m.CachedAt = some t ∧
          now - t < (if 0 < m.TTL then m.TTL else defaultTTL) * 1000000000 := by
  have httl : (if m.TTL ≤ 0 then defaultTTL else m.TTL)
      = (if 0 < m.TTL then m.TTL else defaultTTL) := by
    by_cases h : m.TTL ≤ 0
    · have : ¬ 0 < m.TTL := by omega
      simp [h, this]
    · have : 0 < m.TTL := by omega
      simp [h, this]
  unfold IsFresh
  by_cases hneg : m.Neg
  · simp [hneg]
  · by_cases hca : m.CachedAt = ""
    · simp [hneg, hca]
    · cases hp : parse m.CachedAt with
      | none => simp [hneg, hca, hp]
      | some t => simp [hneg, hca, hp, httl]

/-- A closed instance of the C2 characterization at a concrete record. -/
theorem isFresh_iff_witness :
    IsFresh (fun s => if s = "t0" then some 0 else none) 5
      { emptyMeta with CachedAt := "t0" } 1 = true :=
  (isFresh_iff (fun s => if s = "t0" then some 0 else none) 5
      { emptyMeta with CachedAt := "t0" } 1).mpr
    ⟨rfl, by decide, 0, by decide, by decide⟩

/-- Claim C3: an empty or unparseable `CachedAt` makes both freshness
predicates false, whatever the other fields and the TTL arguments are;
both predicates are total functions, so no error is signalled. -/
theorem parse_failure_not_fresh (parse : String → Option Int) (now : Int) (m : Meta)
    (defaultTTL ttl404 : Int)
    (h : m.CachedAt = "" ∨ parse m.CachedAt = none) :
    IsFresh parse now m defaultTTL = false ∧ IsNegativeFresh parse now m ttl404 = false := by
  cases h with
  | inl hca =>
    constructor
    · unfold IsFresh
      by_cases hneg : m.Neg <;> simp [hneg, hca]
    · unfold IsNegativeFresh
      simp [hca]
  | inr hp =>
    constructor
    · unfold IsFresh
      by_cases hneg : m.Neg
      · simp [hneg]
      · by_cases hca : m.CachedAt = "" <;> simp [hneg, hca, hp]
    · unfold IsNegativeFresh
      by_cases hneg : m.Neg = false
      · simp [hneg]
      · by_cases hca : m.CachedAt = "" <;> simp [hneg, hca, hp]

/-- A closed instance of C3 at a record with an unparseable timestamp. -/
theorem parse_failure_not_fresh_witness :
    IsFresh (fun _ => none) 0 { emptyMeta with CachedAt := "garbage", Neg := false } 3600 = false ∧
      IsNegativeFresh (fun _ => none) 0 { emptyMeta with CachedAt := "garbage", Neg := false } 60 = false :=
  parse_failure_not_fresh (fun _ => none) 0 _ 3600 60 (Or.inr rfl)

/-- Claim C10: the two freshness predicates are mutually exclusive — a
record is never both positively fresh and negatively fresh, since the
first requires `Neg = false` and the second `Neg = true`. -/
theorem fresh_mutually_exclusive (parse : String → Option Int) (now : Int) (m : Meta)
    (defaultTTL ttl404 : Int) :
    (IsFresh parse now m defaultTTL && IsNegativeFresh parse now m ttl404) = false := by
  by_cases hneg : m.Neg
  · have h1 : IsFresh parse now m defaultTTL = false := by
      unfold IsFresh; simp [hneg]
    simp [h1]
  · have h2 : IsNegativeFresh parse now m ttl404 = false := by
      unfold IsNegativeFresh
      simp [hneg]
    simp [h2]

/-- A closed instance of C10 at a concrete record. -/
theorem fresh_mutually_exclusive_witness :
    (IsFresh (fun _ => some 0) 0 { emptyMeta with CachedAt := "x", Neg := true } 10 &&
      IsNegativeFresh (fun _ => some 0) 0 { emptyMeta with CachedAt := "x", Neg := true } 10) = false :=
  fresh_mutually_exclusive (fun _ => some 0) 0 _ 10 10

/-! ### Key derivation (claim C8) -/

/-- Two strings with equal character lists are equal. -/
lemma string_data_inj {s t : String} (h : s.data = t.data) : s = t := by
  cases s; cases t; simp_all

/-- A list of the shape `d ++ '/' :: r` with a slash-free `d` determines
`d` and `r` uniquely. -/
lemma sep_split_inj : ∀ {d1 d2 r1 r2 : List Char}, '/' ∉ d1 → '/' ∉ d2 →
    d1 ++ '/' :: r1 = d2 ++ '/' :: r2 → d1 = d2 ∧ r1 = r2 := by
  intro d1
  induction d1 with
  | nil =>
    intro d2 r1 r2 h1 h2 h
    cases d2 with
    | nil => simpa using h
    | cons b bs =>
      simp only [List.nil_append, List.cons_append, List.cons.injEq] at h
      exact absurd (by rw [h.1]; exact List.mem_cons_self b bs) h2
  | cons a as ih =>
    intro d2 r1 r2 h1 h2 h
    cases d2 with
    | nil =>
      simp only [List.nil_append, List.cons_append, List.cons.injEq] at h
      exact absurd (by rw [← h.1]; exact List.mem_cons_self a as) h1
    | cons b bs =>
      simp only [List.cons_append, List.cons.injEq] at h
      have h1' : '/' ∉ as := fun hm => h1 (List.mem_cons_of_mem _ hm)
      have h2' : '/' ∉ bs := fun hm => h2 (List.mem_cons_of_mem _ hm)
      obtain ⟨hd, hr⟩ := ih h1' h2' h.2
      exact ⟨by rw [h.1, hd], hr⟩

/-- Character-list form of `ObjectKey`. -/
lemma objectKey_data (d r : String) :
    (ObjectKey d r).data = "objects/".data ++ (d.data ++ '/' :: (trimLeadingSlashes r).data) := by
  simp [ObjectKey, String.data_append, List.append_assoc]

/-- Character-list form of `MetaKey`. -/
lemma metaKey_data (d r : String) :
    (MetaKey d r).data =
      "meta/".data ++ (d.data ++ '/' :: ((trimLeadingSlashes r).data ++ ".json".data)) := by
  simp [MetaKey, String.data_append, List.append_assoc]

/-- Claim C8 as stated is false: a domain that itself contains a slash can
collide with a different (domain, route) pair. At `("a/b", "c")` and
`("a", "b/c")` — distinct pairs, already slash-trimmed — both `ObjectKey`
values are `"objects/a/b/c"`. -/
theorem key_derivation_counterexample :
    ¬ (∀ d1 r1 d2 r2 : String,
        (d1, trimLeadingSlashes r1) ≠ (d2, trimLeadingSlashes r2) →
        ObjectKey d1 r1 ≠ ObjectKey d2 r2 ∧ MetaKey d1 r1 ≠ MetaKey d2 r2) := by
  intro h
  exact (h "a/b" "c" "a" "b/c" (by decide)).1 (by decide)

/-- Claim C8, amended: key derivation is injective on (domain, route)
pairs that are distinct after leading-slash trimming of the route,
provided the domains contain no '/' — which holds for every domain
produced by the path parser, since it cuts the domain at the first
slash. -/
theorem key_derivation_injective (d1 r1 d2 r2 : String)
    (h1 : '/' ∉ d1.data) (h2 : '/' ∉ d2.data)
    (hne : (d1, trimLeadingSlashes r1) ≠ (d2, trimLeadingSlashes r2)) :
    ObjectKey d1 r1 ≠ ObjectKey d2 r2 ∧ MetaKey d1 r1 ≠ MetaKey d2 r2 := by
  constructor
  · intro heq
    have hd := congrArg String.data heq
    rw [objectKey_data, objectKey_data] at hd
    have hd' := List.append_cancel_left hd
    obtain ⟨hdom, hroute⟩ := sep_split_inj h1 h2 hd'
    exact hne (by rw [string_data_inj hdom, string_data_inj hroute])
  · intro heq
    have hd := congrArg String.data heq
    rw [metaKey_data, metaKey_data] at hd
    have hd' := List.append_cancel_left hd
    obtain ⟨hdom, hroute⟩ := sep_split_inj h1 h2 hd'
    have hroute' := List.append_cancel_right hroute
    exact hne (by rw [string_data_inj hdom, string_data_inj hroute'])

/-- A closed instance of the amended C8 at slash-free domains. -/
theorem key_derivation_injective_witness :
    ObjectKey "a" "x" ≠ ObjectKey "a" "y" ∧ MetaKey "a" "x" ≠ MetaKey "a" "y" :=
  key_derivation_injective "a" "x" "a" "y" (by decide) (by decide) (by decide)

/-! ### Path parsing (claim C9, server part_003 lines 221-228) -/

/-- `strings.TrimPrefix(path, "/")`: drop one leading slash if present. -/
def trimOneLeadingSlash (s : String) : String :=
  match s.data with
  | '/' :: rest => String.mk rest
  | _ => s

/-- `strings.IndexByte(p, '/')`: index of the first slash, `none` when
absent (Go returns -1). -/
def indexOfSlash : List Char → Option Nat
  | [] => none
  | c :: cs => if c = '/' then some 0 else Option.map Nat.succ (indexOfSlash cs)

/-- `server.splitDomainAndRoute` (part_003 lines 221-228): trim one
leading slash, split at the first remaining slash; `none` models the
error return when that slash is absent or at position 0. -/
def splitDomainAndRoute (path : String) : Option (String × String) :=
  let p := trimOneLeadingSlash path
  match indexOfSlash p.data with
  | none => none
  | some 0 => none
  | some i => some (String.mk (p.data.take i), String.mk (p.data.drop (i + 1)))

/-- Spec-side predicate, following the spec's words: the path has a route
component iff, after stripping a leading slash, it splits as
`<domain>/<route>` with a nonempty, slash-free domain segment in front of
the separating slash. -/
def HasRouteComponent (path : String) : Prop :=
  ∃ d r : List Char, d ≠ [] ∧ '/' ∉ d ∧ (trimOneLeadingSlash path).data = d ++ '/' :: r

/-- The first slash of `d ++ '/' :: r` with a slash-free `d` sits at
index `d.length`. -/
lemma indexOfSlash_append (d : List Char) (r : List Char) (hd : '/' ∉ d) :
    indexOfSlash (d ++ '/' :: r) = some d.length := by
  induction d with
  | nil => simp [indexOfSlash]
  | cons a as ih =>
    have ha : a ≠ '/' := fun h => hd (by rw [h]; exact List.mem_cons_self _ _)
    have has : '/' ∉ as := fun hm => hd (List.mem_cons_of_mem _ hm)
    simp [indexOfSlash, ha, ih has]

/-- A first slash at a positive index yields a domain/route decomposition. -/
lemma exists_of_indexOfSlash : ∀ (l : List Char) (i : Nat),
    indexOfSlash l = some (i + 1) →
    ∃ d r, d ≠ [] ∧ '/' ∉ d ∧ l = d ++ '/' :: r := by
  intro l
  induction l with
  | nil => intro i h; simp [indexOfSlash] at h
  | cons c cs ih =>
    intro i h
    by_cases hc : c = '/'
    · simp [indexOfSlash, hc] at h
    · simp only [indexOfSlash, hc, if_false] at h
      cases hcs : indexOfSlash cs with
      | none => rw [hcs] at h; simp at h
      | some j =>
        rw [hcs] at h
        simp at h
        cases j with
        | zero =>
          cases cs with
          | nil => simp [indexOfSlash] at hcs
          | cons b bs =>
            by_cases hb : b = '/'
            · refine ⟨[c], bs, by simp, ?_, by simp [hb]⟩
              intro hm
              rcases List.mem_cons.mp hm with h1 | h1
              · exact hc h1.symm
              · simp at h1
            · simp [indexOfSlash, hb] at hcs
        | succ j =>
          obtain ⟨d, r, hdne, hds, hcseq⟩ := ih j hcs
          refine ⟨c :: d, r, by simp, ?_, by simp [hcseq]⟩
          intro hm
          rcases List.mem_cons.mp hm with h1 | h1
          · exact hc h1.symm
          · exact hds h1

/-- The parser rejects a path exactly when it has no route component. -/
lemma split_none_iff (path : String) :
    splitDomainAndRoute path = none ↔ ¬ HasRouteComponent path := by
  unfold splitDomainAndRoute HasRouteComponent
  cases hix : indexOfSlash (trimOneLeadingSlash path).data with
  | none =>
    simp only [hix]
    constructor
    · intro _ ⟨d, r, hd, hs, heq⟩
      rw [heq, indexOfSlash_append d r hs] at hix
      simp at hix
    · intro _; trivial
  | some i =>
    cases i with
    | zero =>
      simp only [hix]
      constructor
      · intro _ ⟨d, r, hd, hs, heq⟩
        rw [heq, indexOfSlash_append d r hs] at hix
        simp at hix
        exact hd hix
      · intro _; trivial
    | succ j =>
      simp only [hix]
      constructor
      · intro h; simp at h
      · intro h
        exact (h (exists_of_indexOfSlash _ j hix)).elim

/-! ### Store model and request coordinator (server part_003 / ServeHTTP) -/

/-- A stored object: body bytes and content type (storage.PutObject). -/
structure ObjEntry where
  body : List Nat
  contentType : String
deriving DecidableEq, Repr

/-- The object store: object blobs and metadata sidecars, each an
association list from key to value; a write prepends a binding, a lookup
returns the most recent one. -/
structure StoreState where
  objects : List (String × ObjEntry)
  metas : List (String × Meta)
deriving DecidableEq, Repr

/-- Most-recent-binding lookup in an association list. -/
def lookupA {α : Type} : List (String × α) → String → Option α
  | [], _ => none
  | (k, v) :: rest, key => if k = key then some v else lookupA rest key

/-- `storage.Store.ReadMeta` through the server's use: the record and a
found flag; absence yields the zero record and `false`. -/
def readMeta (σ : StoreState) (key : String) : Meta × Bool :=
  match lookupA σ.metas key with
  | some m => (m, true)
  | none => (emptyMeta, false)

/-- `storage.Store.HasObject` on the model state. -/
def hasObject (σ : StoreState) (key : String) : Bool :=
  (lookupA σ.objects key).isSome

/-- `storage.Store.PutObject` on the model state. -/
def putObjectOp (σ : StoreState) (key : String) (body : List Nat) (ct : String) : StoreState :=
  { σ with objects := (key, { body := body, contentType := ct }) :: σ.objects }

/-- `storage.Store.WriteMeta` on the model state; `ok = false` models a
failed store write, which leaves the state unchanged. -/
def writeMetaOp (ok : Bool) (σ : StoreState) (key : String) (m : Meta) : StoreState :=
  if ok then { σ with metas := (key, m) :: σ.metas } else σ

/-- An upstream HTTP response as the fetch produces it: status, the three
relevant headers, and the body bytes. -/
structure UpResp where
  status : Int
  body : List Nat
  contentType : String
  etag : String
  lastModified : String
deriving DecidableEq, Repr

/-- The `fetched` struct of the server (health.go lines 317-324). -/
structure Fetched where
  status : Int
  notModified : Bool
  body : List Nat
  contentType : String
  etag : String
  lastModified : String
deriving DecidableEq, Repr

/-- `server.download` (health.go lines 213-246) applied to an available
upstream response: a 304 is flagged `notModified` and carries no body;
anything else carries status, headers and body. -/
def download (r : UpResp) : Fetched :=
  if r.status = 304 then
    { status := r.status, notModified := true, body := [], contentType := "",
      etag := "", lastModified := "" }
  else
    { status := r.status, notModified := false, body := r.body,
      contentType := r.contentType, etag := r.etag, lastModified := r.lastModified }

/-- `server.fetchKind` (part_003 lines 238-245). -/
inductive FetchKind
  | serveCache
  | notFound
  | upstreamError
  | wroteBody
deriving DecidableEq, Repr

/-- `server.fetchResult` (part_003 lines 247-254), with the Go zero values
as field defaults. -/
structure FetchResult where
  kind : FetchKind
  status : Int := 0
  body : List Nat := []
  contentType : String := ""
  etag : String := ""
  lastModified : String := ""
deriving DecidableEq, Repr

/-- The single-flight work function (the closure passed to `sf.Do`,
part_003 lines 73-153): re-check freshness, fetch conditionally, persist
according to the status, and produce the outcome. Returns the outcome (or
an error), the new store state, and how many upstream fetches were
issued. `upstream` is the outside response (or transport error);
`putObjectOk` / `writeMetaOk` switch store-write failures. -/
def sfBody (parse : String → Option Int) (now ttlDefault ttl404 : Int)
    (objKey metaKey : String) (upstream : Except Unit UpResp)
    (putObjectOk writeMetaOk : Bool) (σ : StoreState) :
    Except Unit FetchResult × StoreState × Nat :=
  let meta := (readMeta σ metaKey).1
  let hasMeta := (readMeta σ metaKey).2
  if hasMeta && IsNegativeFresh parse now meta ttl404 then
    (Except.ok { kind := FetchKind.notFound }, σ, 0)
  else if hasMeta && IsFresh parse now meta ttlDefault && hasObject σ objKey then
    (Except.ok { kind := FetchKind.serveCache }, σ, 0)
  else
    match upstream with
    | Except.error e => (Except.error e, σ, 1)
    | Except.ok r =>
      let fr := download r
      if fr.notModified && hasMeta then
        (Except.ok { kind := FetchKind.serveCache },
          writeMetaOp writeMetaOk σ metaKey { meta with CachedAt := NowISO now }, 1)
      else if fr.status = 404 then
        (Except.ok { kind := FetchKind.notFound },
          writeMetaOp writeMetaOk σ metaKey
            { ETag := "", LastModified := "", CachedAt := NowISO now,
              TTL := ttl404, Size := 0, Neg := true }, 1)
      else if fr.status < 200 ∨ 300 ≤ fr.status then
        (Except.ok { kind := FetchKind.upstreamError, status := fr.status }, σ, 1)
      else
        if putObjectOk then
          let σ1 := putObjectOp σ objKey fr.body fr.contentType
          if writeMetaOk then
            let res : FetchResult :=
              { kind := FetchKind.wroteBody,
                body := fr.body,
                contentType := fr.contentType,
                etag := fr.etag,
                lastModified := fr.lastModified }
            let freshMeta : Meta :=
              { ETag := fr.etag,
                LastModified := fr.lastModified,
                CachedAt := NowISO now,
                TTL := ttlDefault,
                Size := (fr.body.length : Int),
                Neg := false }
            (Except.ok res, writeMetaOp true σ1 metaKey freshMeta, 1)
          else (Except.error Unit.unit, σ1, 1)
        else (Except.error Unit.unit, σ, 1)

/-- The HTTP responses the handler can produce. -/
inductive HResp
  | badRequest
  | negCached404
  | served (key : String)
  | cacheReadFailed
  | upstream404
  | upstreamErr (status : Int)
  | badGateway
  | okBody (body : List Nat) (contentType etag lastModified : String)
deriving DecidableEq, Repr

/-- The HTTP status code of each handler response. -/
def statusOf : HResp → Int
  | HResp.badRequest => 400
  | HResp.negCached404 => 404
  | HResp.served _ => 200
  | HResp.cacheReadFailed => 500
  | HResp.upstream404 => 404
  | HResp.upstreamErr s => s
  | HResp.badGateway => 502
  | HResp.okBody _ _ _ _ => 200

/-- The response dispatch after the single-flight section (part_003 lines
155-201): a single-flight error is a 502; serve-cache streams the object
or reports a 500; not-found is a 404; an upstream error is forwarded when
it is in 400..599, else 502; wrote-body emits the in-memory bytes. -/
def dispatch (σ' : StoreState) (objKey : String) (res : Except Unit FetchResult) (fc : Nat) :
    HResp × StoreState × Nat :=
  match res with
  | Except.error _ => (HResp.badGateway, σ', fc)
  | Except.ok fr =>
    match fr.kind with
    | FetchKind.serveCache =>
      if hasObject σ' objKey then (HResp.served objKey, σ', fc)
      else (HResp.cacheReadFailed, σ', fc)
    | FetchKind.notFound => (HResp.upstream404, σ', fc)
    | FetchKind.upstreamError =>
      if 400 ≤ fr.status ∧ fr.status ≤ 599 then (HResp.upstreamErr fr.status, σ', fc)
      else (HResp.badGateway, σ', fc)
    | FetchKind.wroteBody =>
      (HResp.okBody fr.body fr.contentType fr.etag fr.lastModified, σ', fc)

/-- `server.ServeHTTP` (part_003 lines 36-202) for one request: parse the
path, optionally serve eagerly, take the negative and positive fast
paths, else run the single-flight body and dispatch its outcome. Returns
the response, the final store state, and the number of upstream fetches
issued. `rawQuery` only feeds the upstream URL, which the abstract
`upstream` input stands for. -/
def handle (parse : String → Option Int) (now ttlDefault ttl404 : Int)
    (serveIfPresent : Bool) (path rawQuery : String)
    (upstream : Except Unit UpResp) (putObjectOk writeMetaOk : Bool)
    (σ : StoreState) : HResp × StoreState × Nat :=
  match splitDomainAndRoute path with
  | none => (HResp.badRequest, σ, 0)
  | some dr =>
    let objKey := ObjectKey dr.1 dr.2
    let metaKey := MetaKey dr.1 dr.2
    if serveIfPresent && hasObject σ objKey then (HResp.served objKey, σ, 0)
    else
      let meta := (readMeta σ metaKey).1
      let hasMeta := (readMeta σ metaKey).2
      if hasMeta && IsNegativeFresh parse now meta ttl404 then (HResp.negCached404, σ, 0)
      else if hasMeta && IsFresh parse now meta ttlDefault && hasObject σ objKey then
        (HResp.served objKey, σ, 0)
      else
        let out := sfBody parse now ttlDefault ttl404 objKey metaKey upstream
          putObjectOk writeMetaOk σ
        dispatch out.2.1 objKey out.1 out.2.2

/-- Modelled from the spec: the Single-Flight Deduplicator (spec sections
2, 4.4 and the `golang.org/x/sync/singleflight` `Do` contract; the library
itself is an external dependency, not among this repository's sources).
For `n` holders arriving concurrently for one key while no call is in
progress, the first runs the work exactly once and every holder receives
that single execution's result or error. Returns the list of the results
each holder receives, the final store state, and the number of executions
of the work. -/
def sfDoN (n : Nat) (work : StoreState → Except Unit FetchResult × StoreState × Nat)
    (σ : StoreState) : List (Except Unit FetchResult) × StoreState × Nat :=
  match n with
  | 0 => ([], σ, 0)
  | Nat.succ m => (List.replicate (m + 1) (work σ).1, (work σ).2.1, 1)

/-! ### Single-flight coalescing (claim C1) -/

/-- One run of the single-flight body issues at most one upstream fetch. -/
lemma sfBody_fetch_le_one (parse : String → Option Int) (now ttlDefault ttl404 : Int)
    (objKey metaKey : String) (upstream : Except Unit UpResp)
    (putObjectOk writeMetaOk : Bool) (σ : StoreState) :
    (sfBody parse now ttlDefault ttl404 objKey metaKey upstream putObjectOk writeMetaOk σ).2.2 ≤ 1 := by
  unfold sfBody
  simp only []
  split
  · simp
  · split
    · simp
    · cases upstream with
      | error e => simp
      | ok r =>
        simp only []
        split
        · simp
        · split
          · simp
          · split
            · simp
            · split
              · split <;> simp
              · simp

/-- Claim C1: when `n + 1` callers hit the dedup section concurrently for
one key, the single-flight body runs exactly once, every caller receives
that one execution's exact outcome (result or error), and at most one
upstream fetch is issued in total — no waiting holder fetches on its own. -/
theorem single_flight_coalescing (parse : String → Option Int) (now ttlDefault ttl404 : Int)
    (objKey metaKey : String) (upstream : Except Unit UpResp)
    (putObjectOk writeMetaOk : Bool) (σ : StoreState) (n : Nat) :
    (sfDoN (n + 1) (sfBody parse now ttlDefault ttl404 objKey metaKey upstream
        putObjectOk writeMetaOk) σ).2.2 = 1 ∧
    (sfDoN (n + 1) (sfBody parse now ttlDefault ttl404 objKey metaKey upstream
        putObjectOk writeMetaOk) σ).1 =
      List.replicate (n + 1)
        (sfBody parse now ttlDefault ttl404 objKey metaKey upstream
          putObjectOk writeMetaOk σ).1 ∧
    (sfBody parse now ttlDefault ttl404 objKey metaKey upstream
        putObjectOk writeMetaOk σ).2.2 ≤ 1 :=
  ⟨rfl, rfl,
    sfBody_fetch_le_one parse now ttlDefault ttl404 objKey metaKey upstream
      putObjectOk writeMetaOk σ⟩

/-! ### The coordinator's single-flight path -/

/-- With eager serving off and both fast paths missing, the handler enters
the single-flight section and dispatches its outcome. -/
lemma handle_enters_sf (parse : String → Option Int) (now ttlDefault ttl404 : Int)
    (path rawQuery domain route : String) (upstream : Except Unit UpResp)
    (putObjectOk writeMetaOk : Bool) (σ : StoreState)
    (hsplit : splitDomainAndRoute path = some (domain, route))
    (hm1 : ((readMeta σ (MetaKey domain route)).2 &&
      IsNegativeFresh parse now (readMeta σ (MetaKey domain route)).1 ttl404) = false)
    (hm2 : ((readMeta σ (MetaKey domain route)).2 &&
      IsFresh parse now (readMeta σ (MetaKey domain route)).1 ttlDefault &&
      hasObject σ (ObjectKey domain route)) = false) :
    handle parse now ttlDefault ttl404 false path rawQuery upstream putObjectOk writeMetaOk σ =
      dispatch (sfBody parse now ttlDefault ttl404 (ObjectKey domain route)
          (MetaKey domain route) upstream putObjectOk writeMetaOk σ).2.1
        (ObjectKey domain route)
        (sfBody parse now ttlDefault ttl404 (ObjectKey domain route)
          (MetaKey domain route) upstream putObjectOk writeMetaOk σ).1
        (sfBody parse now ttlDefault ttl404 (ObjectKey domain route)
          (MetaKey domain route) upstream putObjectOk writeMetaOk σ).2.2 := by
  unfold handle
  rw [hsplit]
  simp only [Bool.false_and, Bool.false_eq_true, if_false, hm1, hm2]

/-- `download` preserves the upstream status. -/
lemma download_status (r : UpResp) : (download r).status = r.status := by
  unfold download; split <;> rfl

/-- `download` flags `notModified` exactly on a 304. -/
lemma download_notModified (r : UpResp) : (download r).notModified = decide (r.status = 304) := by
  unfold download
  split
  · simp [*]
  · simp [*]

/-- Branch lemma: a 404 from upstream, past the re-checked fast paths,
yields the not-found outcome and writes the fresh negative record. -/
lemma sfBody_404 (parse : String → Option Int) (now ttlDefault ttl404 : Int)
    (objKey metaKey : String) (r : UpResp) (putObjectOk writeMetaOk : Bool) (σ : StoreState)
    (hm1 : ((readMeta σ metaKey).2 &&
      IsNegativeFresh parse now (readMeta σ metaKey).1 ttl404) = false)
    (hm2 : ((readMeta σ metaKey).2 &&
      IsFresh parse now (readMeta σ metaKey).1 ttlDefault && hasObject σ objKey) = false)
    (h404 : r.status = 404) :
    sfBody parse now ttlDefault ttl404 objKey metaKey (Except.ok r) putObjectOk writeMetaOk σ =
      (Except.ok { kind := FetchKind.notFound },
        writeMetaOp writeMetaOk σ metaKey
          { ETag := "", LastModified := "", CachedAt := NowISO now,
            TTL := ttl404, Size := 0, Neg := true }, 1) := by
  have hnm : (download r).notModified = false := by
    rw [download_notModified, h404]; decide
  have hst : (download r).status = 404 := by rw [download_status, h404]
  unfold sfBody
  simp only [hm1, hm2, Bool.false_eq_true, if_false]
  simp [hnm, hst]

/-- Branch lemma: a 304 with prior metadata, past the re-checked fast
paths, yields the serve-cache outcome and refreshes only `CachedAt`. -/
lemma sfBody_304 (parse : String → Option Int) (now ttlDefault ttl404 : Int)
    (objKey metaKey : String) (m : Meta) (r : UpResp) (putObjectOk writeMetaOk : Bool)
    (σ : StoreState)
    (hm : lookupA σ.metas metaKey = some m)
    (hm1 : IsNegativeFresh parse now m ttl404 = false)
    (hm2 : (IsFresh parse now m ttlDefault && hasObject σ objKey) = false)
    (h304 : r.status = 304) :
    sfBody parse now ttlDefault ttl404 objKey metaKey (Except.ok r) putObjectOk writeMetaOk σ =
      (Except.ok { kind := FetchKind.serveCache },
        writeMetaOp writeMetaOk σ metaKey { m with CachedAt := NowISO now }, 1) := by
  have hrm : readMeta σ metaKey = (m, true) := by
    unfold readMeta; rw [hm]
  have hnm : (download r).notModified = true := by
    rw [download_notModified, h304]; decide
  unfold sfBody
  rw [hrm]
  simp only [hm1, hm2, Bool.and_false, Bool.false_eq_true, if_false]
  simp [hnm, hrm]
  intro h
  simpa [h] using hm2

/-- Branch lemma: any other non-2xx (not a 404, not a 304 with prior
metadata), past the re-checked fast paths, yields the upstream-error
outcome carrying the status, and leaves the store untouched. -/
lemma sfBody_upstreamError (parse : String → Option Int) (now ttlDefault ttl404 : Int)
    (objKey metaKey : String) (r : UpResp) (putObjectOk writeMetaOk : Bool) (σ : StoreState)
    (hm1 : ((readMeta σ metaKey).2 &&
      IsNegativeFresh parse now (readMeta σ metaKey).1 ttl404) = false)
    (hm2 : ((readMeta σ metaKey).2 &&
      IsFresh parse now (readMeta σ metaKey).1 ttlDefault && hasObject σ objKey) = false)
    (hst : r.status < 200 ∨ 300 ≤ r.status)
    (hn404 : r.status ≠ 404)
    (hn304 : ¬ (r.status = 304 ∧ (readMeta σ metaKey).2 = true)) :
    sfBody parse now ttlDefault ttl404 objKey metaKey (Except.ok r) putObjectOk writeMetaOk σ =
      (Except.ok { kind := FetchKind.upstreamError, status := r.status }, σ, 1) := by
  have hnm : ((download r).notModified && (readMeta σ metaKey).2) = false := by
    rw [download_notModified]
    by_cases h3 : r.status = 304
    · cases hhm : (readMeta σ metaKey).2 with
      | false => simp
      | true => exact absurd ⟨h3, hhm⟩ hn304
    · simp [h3]
  have hsd : (download r).status = r.status := download_status r
  unfold sfBody
  simp only [hm1, hm2, Bool.false_eq_true, if_false]
  simp [hnm, hsd, hn404, hst]

/-- Branch lemma: a 2xx whose persist step fails (object write or
metadata write) surfaces an error from the single-flight body. -/
lemma sfBody_persist_fail (parse : String → Option Int) (now ttlDefault ttl404 : Int)
    (objKey metaKey : String) (r : UpResp) (putObjectOk writeMetaOk : Bool) (σ : StoreState)
    (hm1 : ((readMeta σ metaKey).2 &&
      IsNegativeFresh parse now (readMeta σ metaKey).1 ttl404) = false)
    (hm2 : ((readMeta σ metaKey).2 &&
      IsFresh parse now (readMeta σ metaKey).1 ttlDefault && hasObject σ objKey) = false)
    (h2xx : 200 ≤ r.status ∧ r.status < 300)
    (hfail : putObjectOk = false ∨ writeMetaOk = false) :
    (sfBody parse now ttlDefault ttl404 objKey metaKey (Except.ok r)
        putObjectOk writeMetaOk σ).1 = Except.error Unit.unit ∧
    (sfBody parse now ttlDefault ttl404 objKey metaKey (Except.ok r)
        putObjectOk writeMetaOk σ).2.2 = 1 := by
  have hn304 : r.status ≠ 304 := by omega
  have hn404 : r.status ≠ 404 := by omega
  have hnm : (download r).notModified = false := by
    rw [download_notModified]; simp [hn304]
  have hsd : (download r).status = r.status := download_status r
  have hnotErr : ¬ (r.status < 200 ∨ 300 ≤ r.status) := by omega
  unfold sfBody
  simp only [hm1, hm2, Bool.false_eq_true, if_false]
  simp only [hnm, Bool.false_and, Bool.false_eq_true, if_false, hsd, hn404, hnotErr]
  cases hfail with
  | inl hpo => simp [hpo, hnotErr]
  | inr hwo =>
    cases hpo : putObjectOk with
    | false => simp [hnotErr]
    | true => simp [hwo, hnotErr]

/-! ### Claims about the request coordinator -/

/-- Claim C4: an upstream 404 (past the fast paths, with eager serving
off and a working metadata write) makes the coordinator write a negative
record (`Neg = true`, TTL = the 404 default, `CachedAt` = now) and answer
404; and any later request that finds a negative-fresh record at the
metadata key answers 404 with the store untouched and zero upstream
fetches. -/
theorem negative_caching_404 (parse : String → Option Int) (now ttlDefault ttl404 : Int)
    (path rawQuery domain route : String) (σ : StoreState) (r : UpResp) (putObjectOk : Bool)
    (hsplit : splitDomainAndRoute path = some (domain, route))
    (hm1 : ((readMeta σ (MetaKey domain route)).2 &&
      IsNegativeFresh parse now (readMeta σ (MetaKey domain route)).1 ttl404) = false)
    (hm2 : ((readMeta σ (MetaKey domain route)).2 &&
      IsFresh parse now (readMeta σ (MetaKey domain route)).1 ttlDefault &&
      hasObject σ (ObjectKey domain route)) = false)
    (h404 : r.status = 404) :
    (handle parse now ttlDefault ttl404 false path rawQuery (Except.ok r)
        putObjectOk true σ).1 = HResp.upstream404 ∧
    statusOf (handle parse now ttlDefault ttl404 false path rawQuery (Except.ok r)
        putObjectOk true σ).1 = 404 ∧
    lookupA (handle parse now ttlDefault ttl404 false path rawQuery (Except.ok r)
        putObjectOk true σ).2.1.metas (MetaKey domain route) =
      some { ETag := "", LastModified := "", CachedAt := NowISO now,
             TTL := ttl404, Size := 0, Neg := true } ∧
    (∀ (σ₂ : StoreState) (m₂ : Meta) (up₂ : Except Unit UpResp) (po₂ wo₂ : Bool),
      lookupA σ₂.metas (MetaKey domain route) = some m₂ →
      IsNegativeFresh parse now m₂ ttl404 = true →
      handle parse now ttlDefault ttl404 false path rawQuery up₂ po₂ wo₂ σ₂ =
        (HResp.negCached404, σ₂, 0) ∧ statusOf HResp.negCached404 = 404) := by
  rw [handle_enters_sf parse now ttlDefault ttl404 path rawQuery domain route
    (Except.ok r) putObjectOk true σ hsplit hm1 hm2]
  rw [sfBody_404 parse now ttlDefault ttl404 (ObjectKey domain route) (MetaKey domain route)
    r putObjectOk true σ hm1 hm2 h404]
  refine ⟨rfl, rfl, by simp [dispatch, writeMetaOp, lookupA], ?_⟩
  intro σ₂ m₂ up₂ po₂ wo₂ hl₂ hneg₂
  have hrm₂ : readMeta σ₂ (MetaKey domain route) = (m₂, true) := by
    unfold readMeta; rw [hl₂]
  constructor
  · unfold handle
    rw [hsplit]
    simp [hrm₂, hneg₂]
  · rfl

/-- A closed instance of C4: a 404 on a miss over the empty store. -/
theorem negative_caching_404_witness :
    (handle (fun _ => none) 0 3600 60 false "/example.com/missing" ""
        (Except.ok { status := 404, body := [], contentType := "", etag := "", lastModified := "" })
        true true { objects := [], metas := [] }).1 = HResp.upstream404 ∧
    lookupA (handle (fun _ => none) 0 3600 60 false "/example.com/missing" ""
        (Except.ok { status := 404, body := [], contentType := "", etag := "", lastModified := "" })
        true true { objects := [], metas := [] }).2.1.metas (MetaKey "example.com" "missing") =
      some { ETag := "", LastModified := "", CachedAt := NowISO 0,
             TTL := 60, Size := 0, Neg := true } := by
  have h := negative_caching_404 (fun _ => none) 0 3600 60 "/example.com/missing" ""
    "example.com" "missing" { objects := [], metas := [] }
    { status := 404, body := [], contentType := "", etag := "", lastModified := "" }
    true (by decide) (by decide) (by decide) (by decide)
  exact ⟨h.1, h.2.2.1⟩

/-- Claim C5: a 304 revalidation with prior metadata (past the re-checked
fast paths, with the metadata write succeeding) persists a record equal to
the prior one in every field except `CachedAt`, which becomes the current
instant; the stored objects are untouched and the outcome is serve-cache. -/
theorem revalidation_frame (parse : String → Option Int) (now ttlDefault ttl404 : Int)
    (objKey metaKey : String) (m : Meta) (r : UpResp) (putObjectOk : Bool) (σ : StoreState)
    (hm : lookupA σ.metas metaKey = some m)
    (hm1 : IsNegativeFresh parse now m ttl404 = false)
    (hm2 : (IsFresh parse now m ttlDefault && hasObject σ objKey) = false)
    (h304 : r.status = 304) :
    (sfBody parse now ttlDefault ttl404 objKey metaKey (Except.ok r)
        putObjectOk true σ).1 = Except.ok { kind := FetchKind.serveCache } ∧
    (sfBody parse now ttlDefault ttl404 objKey metaKey (Except.ok r)
        putObjectOk true σ).2.1.objects = σ.objects ∧
    (∃ m', lookupA (sfBody parse now ttlDefault ttl404 objKey metaKey (Except.ok r)
        putObjectOk true σ).2.1.metas metaKey = some m' ∧
      m'.ETag = m.ETag ∧ m'.LastModified = m.LastModified ∧ m'.TTL = m.TTL ∧
      m'.Size = m.Size ∧ m'.Neg = m.Neg ∧ m'.CachedAt = NowISO now) := by
  rw [sfBody_304 parse now ttlDefault ttl404 objKey metaKey m r putObjectOk true σ
    hm hm1 hm2 h304]
  refine ⟨rfl, rfl, { m with CachedAt := NowISO now }, ?_, rfl, rfl, rfl, rfl, rfl, rfl⟩
  simp [writeMetaOp, lookupA]

/-- A closed instance of C5: a 304 over a store holding one stale record. -/
theorem revalidation_frame_witness :
    (sfBody (fun _ => none) 0 3600 60 (ObjectKey "d" "r") (MetaKey "d" "r")
        (Except.ok { status := 304, body := [], contentType := "", etag := "", lastModified := "" })
        true true
        { objects := [],
          metas := [(MetaKey "d" "r",
            { ETag := "e1", LastModified := "l1", CachedAt := "c1",
              TTL := 5, Size := 7, Neg := false })] }).1 =
      Except.ok { kind := FetchKind.serveCache } ∧
    (sfBody (fun _ => none) 0 3600 60 (ObjectKey "d" "r") (MetaKey "d" "r")
        (Except.ok { status := 304, body := [], contentType := "", etag := "", lastModified := "" })
        true true
        { objects := [],
          metas := [(MetaKey "d" "r",
            { ETag := "e1", LastModified := "l1", CachedAt := "c1",
              TTL := 5, Size := 7, Neg := false })] }).2.1.objects = [] := by
  have h := revalidation_frame (fun _ => none) 0 3600 60 (ObjectKey "d" "r") (MetaKey "d" "r")
    { ETag := "e1", LastModified := "l1", CachedAt := "c1", TTL := 5, Size := 7, Neg := false }
    { status := 304, body := [], contentType := "", etag := "", lastModified := "" }
    true
    { objects := [],
      metas := [(MetaKey "d" "r",
        { ETag := "e1", LastModified := "l1", CachedAt := "c1",
          TTL := 5, Size := 7, Neg := false })] }
    (by simp [lookupA]) (by decide) (by decide) (by decide)
  exact ⟨h.1, h.2.1⟩

/-- Claim C6: an upstream status that is neither 2xx nor 404 nor a 304
with prior metadata persists nothing — the store state is exactly the
prior one — and the client receives the upstream status when it lies in
400..599, else 502. -/
theorem upstream_error_passthrough (parse : String → Option Int) (now ttlDefault ttl404 : Int)
    (path rawQuery domain route : String) (σ : StoreState) (r : UpResp)
    (putObjectOk writeMetaOk : Bool)
    (hsplit : splitDomainAndRoute path = some (domain, route))
    (hm1 : ((readMeta σ (MetaKey domain route)).2 &&
      IsNegativeFresh parse now (readMeta σ (MetaKey domain route)).1 ttl404) = false)
    (hm2 : ((readMeta σ (MetaKey domain route)).2 &&
      IsFresh parse now (readMeta σ (MetaKey domain route)).1 ttlDefault &&
      hasObject σ (ObjectKey domain route)) = false)
    (hst : r.status < 200 ∨ 300 ≤ r.status)
    (hn404 : r.status ≠ 404)
    (hn304 : ¬ (r.status = 304 ∧ (readMeta σ (MetaKey domain route)).2 = true)) :
    (handle parse now ttlDefault ttl404 false path rawQuery (Except.ok r)
        putObjectOk writeMetaOk σ).2.1 = σ ∧
    statusOf (handle parse now ttlDefault ttl404 false path rawQuery (Except.ok r)
        putObjectOk writeMetaOk σ).1 =
      (if 400 ≤ r.status ∧ r.status ≤ 599 then r.status else 502) := by
  rw [handle_enters_sf parse now ttlDefault ttl404 path rawQuery domain route
    (Except.ok r) putObjectOk writeMetaOk σ hsplit hm1 hm2]
  rw [sfBody_upstreamError parse now ttlDefault ttl404 (ObjectKey domain route)
    (MetaKey domain route) r putObjectOk writeMetaOk σ hm1 hm2 hst hn404 hn304]
  by_cases hrange : 400 ≤ r.status ∧ r.status ≤ 599
  · simp [dispatch, statusOf, hrange]
  · simp [dispatch, statusOf, hrange]

/-- A closed instance of C6: a 503 on a miss over the empty store. -/
theorem upstream_error_passthrough_witness :
    (handle (fun _ => none) 0 3600 60 false "/example.com/a" ""
        (Except.ok { status := 503, body := [], contentType := "", etag := "", lastModified := "" })
        true true { objects := [], metas := [] }).2.1 = { objects := [], metas := [] } ∧
    statusOf (handle (fun _ => none) 0 3600 60 false "/example.com/a" ""
        (Except.ok { status := 503, body := [], contentType := "", etag := "", lastModified := "" })
        true true { objects := [], metas := [] }).1 = 503 := by
  have h := upstream_error_passthrough (fun _ => none) 0 3600 60 "/example.com/a" ""
    "example.com" "a" { objects := [], metas := [] }
    { status := 503, body := [], contentType := "", etag := "", lastModified := "" }
    true true (by decide) (by decide) (by decide) (by decide) (by decide) (by decide)
  exact ⟨h.1, h.2.trans (by decide)⟩

/-- Claim C7: when the persist step after a successful 2xx fetch fails
(the object write or the metadata write), the error propagates out of the
single-flight section, the request fails with a 502, and the freshly
fetched bytes are not served. -/
theorem persist_failure_fails_closed (parse : String → Option Int) (now ttlDefault ttl404 : Int)
    (path rawQuery domain route : String) (σ : StoreState) (r : UpResp)
    (putObjectOk writeMetaOk : Bool)
    (hsplit : splitDomainAndRoute path = some (domain, route))
    (hm1 : ((readMeta σ (MetaKey domain route)).2 &&
      IsNegativeFresh parse now (readMeta σ (MetaKey domain route)).1 ttl404) = false)
    (hm2 : ((readMeta σ (MetaKey domain route)).2 &&
      IsFresh parse now (readMeta σ (MetaKey domain route)).1 ttlDefault &&
      hasObject σ (ObjectKey domain route)) = false)
    (h2xx : 200 ≤ r.status ∧ r.status < 300)
    (hfail : putObjectOk = false ∨ writeMetaOk = false) :
    (handle parse now ttlDefault ttl404 false path rawQuery (Except.ok r)
        putObjectOk writeMetaOk σ).1 = HResp.badGateway ∧
    statusOf (handle parse now ttlDefault ttl404 false path rawQuery (Except.ok r)
        putObjectOk writeMetaOk σ).1 = 502 ∧
    (∀ (b : List Nat) (ct etag lm : String),
      (handle parse now ttlDefault ttl404 false path rawQuery (Except.ok r)
        putObjectOk writeMetaOk σ).1 ≠ HResp.okBody b ct etag lm) := by
  rw [handle_enters_sf parse now ttlDefault ttl404 path rawQuery domain route
    (Except.ok r) putObjectOk writeMetaOk σ hsplit hm1 hm2]
  have herr := sfBody_persist_fail parse now ttlDefault ttl404 (ObjectKey domain route)
    (MetaKey domain route) r putObjectOk writeMetaOk σ hm1 hm2 h2xx hfail
  rw [herr.1]
  exact ⟨rfl, rfl, fun b ct etag lm h => HResp.noConfusion h⟩

/-- A closed instance of C7: a 200 whose metadata write fails. -/
theorem persist_failure_fails_closed_witness :
    (handle (fun _ => none) 0 3600 60 false "/example.com/a" ""
        (Except.ok { status := 200, body := [104, 105], contentType := "text/plain",
                     etag := "", lastModified := "" })
        true false { objects := [], metas := [] }).1 = HResp.badGateway := by
  have h := persist_failure_fails_closed (fun _ => none) 0 3600 60 "/example.com/a" ""
    "example.com" "a" { objects := [], metas := [] }
    { status := 200, body := [104, 105], contentType := "text/plain",
      etag := "", lastModified := "" }
    true false (by decide) (by decide) (by decide) (by decide) (Or.inr rfl)
  exact h.1

/-- The post-single-flight dispatch never produces the 400 response. -/
lemma dispatch_ne_badRequest (σ' : StoreState) (objKey : String)
    (res : Except Unit FetchResult) (fc : Nat) :
    (dispatch σ' objKey res fc).1 ≠ HResp.badRequest := by
  unfold dispatch
  cases res with
  | error e => simp
  | ok fr =>
    obtain ⟨k, st, b, ct, e, l⟩ := fr
    cases k <;> simp only []
    · split <;> simp
    · simp
    · split <;> simp
    · simp

/-- When the path parses, the handler never answers 400. -/
lemma handle_some_ne_badRequest (parse : String → Option Int) (now ttlDefault ttl404 : Int)
    (serveIfPresent : Bool) (path rawQuery : String) (upstream : Except Unit UpResp)
    (putObjectOk writeMetaOk : Bool) (σ : StoreState) (dr : String × String)
    (hsplit : splitDomainAndRoute path = some dr) :
    (handle parse now ttlDefault ttl404 serveIfPresent path rawQuery upstream
      putObjectOk writeMetaOk σ).1 ≠ HResp.badRequest := by
  unfold handle
  rw [hsplit]
  simp only []
  split
  · simp
  · split
    · simp
    · split
      · simp
      · exact dispatch_ne_badRequest _ _ _ _

/-- Claim C9: the handler answers 400 exactly when the path has no route
component — after stripping one leading slash it does not split as a
nonempty, slash-free domain followed by a slash and a route — and in that
case it answers before any store or upstream interaction: the store state
is returned untouched and no upstream fetch is issued. -/
theorem bad_request_iff_no_route (parse : String → Option Int) (now ttlDefault ttl404 : Int)
    (serveIfPresent : Bool) (path rawQuery : String) (upstream : Except Unit UpResp)
    (putObjectOk writeMetaOk : Bool) (σ : StoreState) :
    ((handle parse now ttlDefault ttl404 serveIfPresent path rawQuery upstream
        putObjectOk writeMetaOk σ).1 = HResp.badRequest ↔ ¬ HasRouteComponent path) ∧
    ((handle parse now ttlDefault ttl404 serveIfPresent path rawQuery upstream
        putObjectOk writeMetaOk σ).1 = HResp.badRequest →
      handle parse now ttlDefault ttl404 serveIfPresent path rawQuery upstream
        putObjectOk writeMetaOk σ = (HResp.badRequest, σ, 0)) := by
  cases hsp : splitDomainAndRoute path with
  | none =>
    have hh : handle parse now ttlDefault ttl404 serveIfPresent path rawQuery upstream
        putObjectOk writeMetaOk σ = (HResp.badRequest, σ, 0) := by
      unfold handle; rw [hsp]
    refine ⟨⟨fun _ => (split_none_iff path).mp hsp, fun _ => by rw [hh]⟩, fun _ => hh⟩
  | some dr =>
    have hne := handle_some_ne_badRequest parse now ttlDefault ttl404 serveIfPresent
      path rawQuery upstream putObjectOk writeMetaOk σ dr hsp
    have hroute : HasRouteComponent path := by
      by_contra hnr
      rw [← split_none_iff path] at hnr
      rw [hnr] at hsp
      cases hsp
    exact ⟨⟨fun h => absurd h hne, fun h => absurd hroute h⟩, fun h => absurd h hne⟩

/-- A closed instance of C9: a path with no second segment answers 400. -/
theorem bad_request_iff_no_route_witness :
    (handle (fun _ => none) 0 3600 60 false "/onlydomain" ""
        (Except.ok { status := 200, body := [], contentType := "", etag := "", lastModified := "" })
        true true { objects := [], metas := [] }).1 = HResp.badRequest :=
  (bad_request_iff_no_route (fun _ => none) 0 3600 60 false "/onlydomain" ""
      (Except.ok { status := 200, body := [], contentType := "", etag := "", lastModified := "" })
      true true { objects := [], metas := [] }).1.mpr
    (by
      rintro ⟨d, r, hd, hs, heq⟩
      have hmem : '/' ∈ (trimOneLeadingSlash "/onlydomain").data := by
        rw [heq]
        exact List.mem_append.mpr (Or.inr (List.mem_cons_self _ _))
      revert hmem
      decide)

/-- A closed instance of C1: three concurrent holders over the empty
store share one execution's outcome. -/
theorem single_flight_coalescing_witness :
    (sfDoN 3 (sfBody (fun _ => none) 0 3600 60 (ObjectKey "d" "r") (MetaKey "d" "r")
        (Except.ok { status := 200, body := [], contentType := "", etag := "", lastModified := "" })
        true true) { objects := [], metas := [] }).2.2 = 1 ∧
    (sfDoN 3 (sfBody (fun _ => none) 0 3600 60 (ObjectKey "d" "r") (MetaKey "d" "r")
        (Except.ok { status := 200, body := [], contentType := "", etag := "", lastModified := "" })
        true true) { objects := [], metas := [] }).1 =
      List.replicate 3
        ((sfBody (fun _ => none) 0 3600 60 (ObjectKey "d" "r") (MetaKey "d" "r")
          (Except.ok { status := 200, body := [], contentType := "", etag := "", lastModified := "" })
          true true { objects := [], metas := [] }).1) ∧
    (sfBody (fun _ => none) 0 3600 60 (ObjectKey "d" "r") (MetaKey "d" "r")
        (Except.ok { status := 200, body := [], contentType := "", etag := "", lastModified := "" })
        true true { objects := [], metas := [] }).2.2 ≤ 1 :=
  single_flight_coalescing (fun _ => none) 0 3600 60 (ObjectKey "d" "r") (MetaKey "d" "r")
    (Except.ok { status := 200, body := [], contentType := "", etag := "", lastModified := "" })
    true true { objects := [], metas := [] } 2
